import Mathlib

/-!
# Verification of the Xero token-helper credential manager

Shallow embedding of `token_helper.py` (the OAuth2 token lifecycle manager of
the Sales-Day-Book-Xero repository) and proofs about it.

The Python module has two storage backends chosen by ambient environment
detection: a Streamlit "cloud" mode caching the token pair in session state,
and a local mode persisting it in `xero_tokens.json`.  We embed each backend
as a pure function from an explicit state (session cache, or a small file
system holding the contents of `xero_tokens.json` and `xero_tokens.tmp`) to an
outcome: a result (the access token, or the Python exception raised), the new
state, and the list of refresh-token values POSTed to the identity provider
(so that "number of network calls" and "which refresh token was used" are
observable).  Wall-clock reads (`int(time.time())` at the top of
`ensure_access_token` and again inside `_refresh_access_token`) become the
explicit parameters `now` and `nowR`.  The HTTP layer (`requests.post`) is an
oracle `net : String → HttpResult` mapping the refresh token sent to the
provider's behaviour.

Python dictionaries holding a token pair are modelled by `StoredTokens`, a
record of three optional fields (the only keys the program ever reads); a
fully-populated pair, as built by `_refresh_access_token`, is `TokenPair`.
`json.dump(tokens, f, indent=2)` is embedded character-for-character
(including `ensure_ascii` escaping with surrogate pairs) by `dumpTokens`, and
`json.load` by `parseTokens`, a parser for JSON objects in the token-file
schema (keys among the three token keys; other JSON shapes are out of the
modelled scope and map to a decode failure, as they would make the Python
caller fail anyway).
-/

/-- A fully-populated token pair: the dictionary literal built by
`_refresh_access_token` (always exactly the three keys). -/
structure TokenPair where
  access_token : String
  refresh_token : String
  expires_at : Int
deriving Repr, DecidableEq

/-- A possibly-partial stored token dictionary, as obtained from
`json.load` of the tokens file or from `st.session_state`: each of the three
keys the program reads may be absent. -/
structure StoredTokens where
  access_token : Option String
  refresh_token : Option String
  expires_at : Option Int
deriving Repr, DecidableEq

/-- View a full pair as a stored dictionary (all three keys present). -/
def TokenPair.toStored (p : TokenPair) : StoredTokens :=
  ⟨some p.access_token, some p.refresh_token, some p.expires_at⟩

/-- Python truthiness of a (modelled) token dictionary: a dict is truthy iff
it is non-empty, i.e. at least one of the modelled keys is present. -/
def StoredTokens.truthy (t : StoredTokens) : Bool :=
  t.access_token.isSome || t.refresh_token.isSome || t.expires_at.isSome

/-! ## Decimal printing of integers (Python `json.dump` of an `int`) -/

/-- Digit character for `n < 10`. -/
def decDigit (n : Nat) : Char := Char.ofNat (48 + n)

/-- Accumulate the decimal digits of `n` (most significant first) in front of
`acc`; yields `[]` for `n = 0`. -/
def natDigitsAux : Nat → List Char → List Char
  | 0, acc => acc
  | n+1, acc => natDigitsAux ((n+1) / 10) (decDigit ((n+1) % 10) :: acc)
decreasing_by exact Nat.div_lt_self (Nat.succ_pos n) (by omega)

/-- Decimal digits of a natural number, `"0"` included. -/
def natToDec (n : Nat) : List Char :=
  if n = 0 then ['0'] else natDigitsAux n []

/-- Decimal rendering of an integer, as Python's `repr`/`json.dump` writes
it: optional minus sign then digits. -/
def intToDec (i : Int) : List Char :=
  if i < 0 then '-' :: natToDec i.natAbs else natToDec i.natAbs

/-! ## JSON string escaping (`json.dump` with default `ensure_ascii=True`) -/

/-- Lower-case hexadecimal digit for `n < 16` (Python formats `\uXXXX`
escapes with `%04x`, lower case). -/
def hexDigitLC (n : Nat) : Char :=
  if n < 10 then Char.ofNat (48 + n) else Char.ofNat (87 + n)

/-- Four lower-case hex digits of `n < 0x10000`, most significant first. -/
def toHex4 (n : Nat) : List Char :=
  [hexDigitLC (n / 4096 % 16), hexDigitLC (n / 256 % 16),
   hexDigitLC (n / 16 % 16), hexDigitLC (n % 16)]

/-- Escape one character the way CPython's
`json.encoder.py_encode_basestring_ascii` does: the two-character escapes for
quote, backslash and the five control shorthands, `\uXXXX` for every other
character outside printable ASCII `0x20`–`0x7e`, with a surrogate pair for
code points above `0xFFFF`. -/
def escChar (c : Char) : List Char :=
  if c = '"' then ['\\', '"']
  else if c = '\\' then ['\\', '\\']
  else if c.toNat = 8 then ['\\', 'b']
  else if c.toNat = 9 then ['\\', 't']
  else if c.toNat = 10 then ['\\', 'n']
  else if c.toNat = 12 then ['\\', 'f']
  else if c.toNat = 13 then ['\\', 'r']
  else if c.toNat < 32 ∨ 126 < c.toNat then
    if c.toNat < 65536 then '\\' :: 'u' :: toHex4 c.toNat
    else
      ('\\' :: 'u' :: toHex4 (55296 + (c.toNat - 65536) / 1024)) ++
      ('\\' :: 'u' :: toHex4 (56320 + (c.toNat - 65536) % 1024))
  else [c]

/-- Escape a whole character list. -/
def escStr : List Char → List Char
  | [] => []
  | c :: cs => escChar c ++ escStr cs

/-- A JSON string literal (opening quote, escaped body, closing quote). -/
def jsonStringLit (s : String) : List Char :=
  '"' :: escStr s.data ++ ['"']

/-! ## JSON string and number parsing (`json.load`, restricted to the
token-file schema) -/

/-- Value of one hexadecimal digit character. -/
def hexVal (c : Char) : Option Nat :=
  if 48 ≤ c.toNat ∧ c.toNat ≤ 57 then some (c.toNat - 48)
  else if 97 ≤ c.toNat ∧ c.toNat ≤ 102 then some (c.toNat - 87)
  else if 65 ≤ c.toNat ∧ c.toNat ≤ 70 then some (c.toNat - 55)
  else none

/-- Value of four hexadecimal digit characters, most significant first. -/
def hex4Val (a b c d : Char) : Option Nat :=
  match hexVal a, hexVal b, hexVal c, hexVal d with
  | some x, some y, some z, some w => some (4096 * x + 256 * y + 16 * z + w)
  | _, _, _, _ => none

/-- Decode the continuation of a `\uXXXX` escape whose value `n` is a high
surrogate: expects a second `\uXXXX` escape holding a low surrogate and joins
the pair into one code point. -/
def decodeLowSurrogate (n : Nat) : List Char → Option (Char × List Char)
  | e :: u :: a2 :: b2 :: c2 :: d2 :: rest2 =>
    if e = '\\' ∧ u = 'u' then
      match hex4Val a2 b2 c2 d2 with
      | none => none
      | some m =>
        if 56320 ≤ m ∧ m < 57344 then
          some (Char.ofNat (65536 + (n - 55296) * 1024 + (m - 56320)), rest2)
        else none
    else none
  | _ => none

/-- Decode a backslash escape (the backslash already consumed): one of the
seven shorthands, or `\uXXXX` with surrogate-pair joining.  Lone surrogate
escapes are rejected (not representable as a Unicode scalar value). -/
def decodeEsc : List Char → Option (Char × List Char)
  | [] => none
  | e :: cs =>
    if e = '"' then some ('"', cs)
    else if e = '\\' then some ('\\', cs)
    else if e = '/' then some ('/', cs)
    else if e = 'b' then some (Char.ofNat 8, cs)
    else if e = 'f' then some (Char.ofNat 12, cs)
    else if e = 'n' then some (Char.ofNat 10, cs)
    else if e = 'r' then some (Char.ofNat 13, cs)
    else if e = 't' then some (Char.ofNat 9, cs)
    else if e = 'u' then
      match cs with
      | a :: b :: c :: d :: rest =>
        match hex4Val a b c d with
        | none => none
        | some n =>
          if n < 55296 ∨ 57344 ≤ n then some (Char.ofNat n, rest)
          else if n < 56320 then decodeLowSurrogate n rest
          else none
      | _ => none
    else none

/-- Decode one character of a JSON string body: a backslash escape or a plain
character.  Rejects the closing quote and raw control characters (JSON
strict mode). -/
def decodeOne : List Char → Option (Char × List Char)
  | [] => none
  | c :: cs =>
    if c = '\\' then decodeEsc cs
    else if c = '"' ∨ c.toNat < 32 then none
    else some (c, cs)

/-- Fuelled parse of a JSON string body up to and including the closing
quote; returns the decoded characters and the remaining input. -/
def parseStrBodyF : Nat → List Char → Option (List Char × List Char)
  | 0, _ => none
  | fuel + 1, cs =>
    match cs with
    | [] => none
    | c :: cs2 =>
      if c = '"' then some ([], cs2)
      else
        match decodeOne (c :: cs2) with
        | some p => (parseStrBodyF fuel p.2).map (fun q => (p.1 :: q.1, q.2))
        | none => none

/-- Parse a JSON string body (the opening quote already consumed). -/
def parseStrBody (cs : List Char) : Option (List Char × List Char) :=
  parseStrBodyF (cs.length + 1) cs

/-- Decimal digit test. -/
def isDigitCh (c : Char) : Bool := 48 ≤ c.toNat && c.toNat ≤ 57

/-- Consume a run of decimal digits, accumulating their value onto `a`. -/
def parseDigitsAcc : List Char → Nat → Nat × List Char
  | [], a => (a, [])
  | c :: cs, a =>
    if isDigitCh c then parseDigitsAcc cs (a * 10 + (c.toNat - 48)) else (a, c :: cs)

/-- Parse a JSON integer: optional minus sign then at least one digit. -/
def parseInt : List Char → Option (Int × List Char)
  | [] => none
  | c :: cs =>
    if c = '-' then
      match cs with
      | [] => none
      | c2 :: _ =>
        if isDigitCh c2 then
          let p := parseDigitsAcc cs 0
          some (-(p.1 : Int), p.2)
        else none
    else if isDigitCh c then
      let p := parseDigitsAcc (c :: cs) 0
      some ((p.1 : Int), p.2)
    else none

/-- Skip JSON whitespace (space, tab, newline, carriage return). -/
def skipWs : List Char → List Char
  | c :: cs =>
    if c == ' ' || c.toNat = 9 || c.toNat = 10 || c.toNat = 13 then skipWs cs
    else c :: cs
  | [] => []

/-- Parse the value for one recognised key of the token-file object and
record it; unknown keys are outside the modelled schema. -/
def applyKey (t : StoredTokens) (key : List Char) (cs : List Char) :
    Option (StoredTokens × List Char) :=
  if key = "access_token".data then
    match cs with
    | '"' :: cs2 =>
      (parseStrBody cs2).map (fun p => ({ t with access_token := some (String.mk p.1) }, p.2))
    | _ => none
  else if key = "refresh_token".data then
    match cs with
    | '"' :: cs2 =>
      (parseStrBody cs2).map (fun p => ({ t with refresh_token := some (String.mk p.1) }, p.2))
    | _ => none
  else if key = "expires_at".data then
    (parseInt cs).map (fun p => ({ t with expires_at := some p.1 }, p.2))
  else none

/-- Parse up to `k` `"key": value` members separated by commas, returning the
accumulated dictionary and the input remaining after the last member. -/
def parseMembers : Nat → StoredTokens → List Char → Option (StoredTokens × List Char)
  | 0, _, _ => none
  | k + 1, t, cs =>
    match cs with
    | '"' :: cs1 =>
      match parseStrBody cs1 with
      | none => none
      | some (key, cs2) =>
        match skipWs cs2 with
        | ':' :: cs3 =>
          match applyKey t key (skipWs cs3) with
          | none => none
          | some (t2, cs4) =>
            match skipWs cs4 with
            | ',' :: cs5 => parseMembers k t2 (skipWs cs5)
            | cs5 => some (t2, cs5)
        | _ => none
    | _ => none

/-- `json.load` for a token file: a JSON object whose keys are among the
three token keys (at most one member each, last wins). -/
def parseTokens (s : String) : Option StoredTokens :=
  match skipWs s.data with
  | c :: cs =>
    if c = '\x7b' then
      match skipWs cs with
      | c2 :: cs2 =>
        if c2 = '\x7d' then
          if skipWs cs2 = [] then some ⟨none, none, none⟩ else none
        else
          match parseMembers 3 ⟨none, none, none⟩ (c2 :: cs2) with
          | some (t, cs3) =>
            match skipWs cs3 with
            | c4 :: cs4 =>
              if c4 = '\x7d' then
                if skipWs cs4 = [] then some t else none
              else none
            | [] => none
          | none => none
      | [] => none
    else none
  | [] => none

/-- `json.dump(tokens, f, indent=2)` output for a full token pair, byte for
byte: two-space indent, `": "` key separator, keys in the dictionary
insertion order of `_refresh_access_token`. -/
def dumpTokens (p : TokenPair) : String :=
  String.mk (
    ('\x7b' :: '\n' :: ' ' :: ' ' :: []) ++
    jsonStringLit "access_token" ++ (':' :: ' ' :: []) ++ jsonStringLit p.access_token ++
    (',' :: '\n' :: ' ' :: ' ' :: []) ++
    jsonStringLit "refresh_token" ++ (':' :: ' ' :: []) ++ jsonStringLit p.refresh_token ++
    (',' :: '\n' :: ' ' :: ' ' :: []) ++
    jsonStringLit "expires_at" ++ (':' :: ' ' :: []) ++ intToDec p.expires_at ++
    ('\n' :: '\x7d' :: []))

/-! ## Error taxonomy

One constructor per `raise` site of `token_helper.py` (plus the two
propagated exception kinds), each tagged with the Python exception class it
corresponds to, so "same error class" is expressible. -/

/-- The Python exception classes that can escape the token helper. -/
inductive ErrClass where
  | runtimeError
  | fileNotFoundError
  | keyError
  | jsonDecodeError
  | requestsError
deriving Repr, DecidableEq

/-- The errors of the token helper, one constructor per raise site. -/
inductive TokErr where
  /-- `RuntimeError("Missing XERO_CLIENT_ID / XERO_CLIENT_SECRET.")` in
  `_refresh_access_token`. -/
  | configMissing
  /-- `RuntimeError(f"Token refresh failed (status): detail")` in
  `_refresh_access_token` when the provider response is not `resp.ok`. -/
  | refreshFailed (status : Nat) (detail : String)
  /-- `FileNotFoundError("No refresh token available. ...")` in the cloud
  branch of `ensure_access_token`. -/
  | noRefreshTokenCloud
  /-- `FileNotFoundError("xero_tokens.json not found at: ...")` re-raised in
  the local branch of `ensure_access_token`, naming the expected path. -/
  | tokensFileNotFound (path : String)
  /-- `KeyError` from a mandatory dictionary subscript (`raw["access_token"]`,
  `t["access_token"]`, `t["refresh_token"]`). -/
  | keyError (key : String)
  /-- `json.JSONDecodeError` propagating out of `json.load`. -/
  | jsonDecode
  /-- A `requests` transport exception (timeout, connection failure)
  propagating out of `requests.post`. -/
  | networkError (msg : String)
deriving Repr, DecidableEq

/-- The Python class of each error. -/
def TokErr.errClass : TokErr → ErrClass
  | .configMissing => .runtimeError
  | .refreshFailed _ _ => .runtimeError
  | .noRefreshTokenCloud => .fileNotFoundError
  | .tokensFileNotFound _ => .fileNotFoundError
  | .keyError _ => .keyError
  | .jsonDecode => .jsonDecodeError
  | .networkError _ => .requestsError

/-! ## The durable backend: `xero_tokens.json` helpers -/

/-- Path of the durable token file (`TOKENS_PATH`), relative to `BASE_DIR`. -/
def TOKENS_PATH : String := "xero_tokens.json"

/-- `TOKENS_PATH.with_suffix(".tmp")`. -/
def TOKENS_TMP_PATH : String := "xero_tokens.tmp"

/-- The slice of the file system the token helper touches: the contents (if
the file exists) of `xero_tokens.json` and of the temporary file. -/
structure FS where
  tokensJson : Option String
  tokensTmp : Option String
deriving Repr, DecidableEq

/-- First step of `_save_tokens_file`: `json.dump` the pair into the
temporary file. -/
def saveWriteTmp (fs : FS) (tokens : TokenPair) : FS :=
  { fs with tokensTmp := some (dumpTokens tokens) }

/-- Second step of `_save_tokens_file`: `os.replace(tmp, TOKENS_PATH)`, the
atomic rename (only ever executed after the temporary write, so the
temporary file exists). -/
def saveReplace (fs : FS) : FS :=
  { tokensJson := fs.tokensTmp, tokensTmp := none }

/-- `_save_tokens_file`: write-to-temporary then atomically rename. -/
def saveTokensFile (fs : FS) (tokens : TokenPair) : FS :=
  saveReplace (saveWriteTmp fs tokens)

/-- The sequence of file-system states a reader (or a crash) can observe
while `_save_tokens_file` runs: before, between the two steps, after. -/
def saveTrace (fs : FS) (tokens : TokenPair) : List FS :=
  [fs, saveWriteTmp fs tokens, saveTokensFile fs tokens]

/-- `_load_tokens_file` plus the `int(...)`-compatible reading done by the
caller: `open` raises `FileNotFoundError` if the file is absent, otherwise
`json.load` parses it. -/
def loadTokensFile (fs : FS) : Except TokErr StoredTokens :=
  match fs.tokensJson with
  | none => .error (.tokensFileNotFound TOKENS_PATH)
  | some s =>
    match parseTokens s with
    | some t => .ok t
    | none => .error .jsonDecode

/-! ## The refresh core (`_refresh_access_token`) -/

/-- The JSON body of a successful provider response, restricted to the
fields `_refresh_access_token` reads (each may be absent). -/
structure RawResponse where
  access_token : Option String
  refresh_token : Option String
  expires_in : Option Int
deriving Repr, DecidableEq

/-- The provider's reaction to one refresh POST: a success body, a
non-`resp.ok` HTTP response (with the body both as optional parseable JSON
and as raw text), or a transport error. -/
inductive HttpResult where
  | ok (raw : RawResponse)
  | httpError (status : Nat) (jsonDetail : Option String) (text : String)
  | netError (msg : String)
deriving Repr, DecidableEq

/-- Ambient configuration: `XERO_CLIENT_ID` / `XERO_CLIENT_SECRET` as
resolved by `_get_client_id` / `_get_client_secret` (absent = `""`). -/
structure Config where
  client_id : String
  client_secret : String
deriving Repr, DecidableEq

instance {ε α : Type} [DecidableEq ε] [DecidableEq α] : DecidableEq (Except ε α) :=
  fun x y =>
    match x, y with
    | .ok a, .ok b => decidable_of_iff (a = b) (by simp)
    | .error a, .error b => decidable_of_iff (a = b) (by simp)
    | .ok _, .error _ => isFalse (by simp)
    | .error _, .ok _ => isFalse (by simp)

/-- Result of `_refresh_access_token`: the returned pair or the exception,
together with the refresh tokens POSTed to the token endpoint (empty or a
singleton, making network-call counts observable). -/
structure RefreshOutcome where
  result : Except TokErr TokenPair
  posts : List String
deriving Repr, DecidableEq

/-- `_refresh_access_token(refresh_token)`. `nowR` is the `int(time.time())`
read when the success branch builds the new pair. -/
def refreshAccessToken (cfg : Config) (net : String → HttpResult) (nowR : Int)
    (rt : String) : RefreshOutcome :=
  if cfg.client_id = "" ∨ cfg.client_secret = "" then
    ⟨.error .configMissing, []⟩
  else
    match net rt with
    | .netError msg => ⟨.error (.networkError msg), [rt]⟩
    | .httpError status jsonDetail text =>
      ⟨.error (.refreshFailed status (jsonDetail.getD (text.take 400))), [rt]⟩
    | .ok raw =>
      match raw.access_token with
      | none => ⟨.error (.keyError "access_token"), [rt]⟩
      | some atok =>
        ⟨.ok ⟨atok, raw.refresh_token.getD rt, nowR + raw.expires_in.getD 1800 - 60⟩, [rt]⟩

/-! ## `ensure_access_token`, cloud (session-state) backend -/

/-- Outcome of `ensure_access_token` in cloud mode: result, session cache
after the call (`st.session_state["xero_tokens"]`), refresh tokens POSTed. -/
structure CloudOutcome where
  result : Except TokErr String
  session : Option StoredTokens
  posts : List String
deriving Repr, DecidableEq

/-- `(tok or \x7b\x7d).get("refresh_token") or _get_baseline_refresh_token()`:
the cached refresh token if present and non-empty, else the baseline. -/
def cloudBaseRt (sess : Option StoredTokens) (baseline : String) : String :=
  match sess with
  | some t =>
    match t.refresh_token with
    | some rt => if rt = "" then baseline else rt
    | none => baseline
  | none => baseline

/-- The refresh-and-cache tail of the cloud branch (steps 2 of the Python
code: resolve the refresh token, refresh, store in session state, return). -/
def cloudRefresh (cfg : Config) (baseline : String) (net : String → HttpResult)
    (nowR : Int) (sess : Option StoredTokens) : CloudOutcome :=
  let base_rt := cloudBaseRt sess baseline
  if base_rt = "" then ⟨.error .noRefreshTokenCloud, sess, []⟩
  else
    let out := refreshAccessToken cfg net nowR base_rt
    match out.result with
    | .error e => ⟨.error e, sess, out.posts⟩
    | .ok newTok => ⟨.ok newTok.access_token, some newTok.toStored, out.posts⟩

/-- `ensure_access_token` in cloud mode.  `sess` is
`st.session_state.get("xero_tokens")`; `now` is the `int(time.time())` at
the top of the function and `nowR` the one inside the refresh. -/
def ensureAccessTokenCloud (cfg : Config) (baseline : String)
    (net : String → HttpResult) (now nowR : Int) (sess : Option StoredTokens) :
    CloudOutcome :=
  match sess with
  | some tok =>
    if tok.truthy = true ∧ tok.expires_at.getD 0 > now + 30 then
      match tok.access_token with
      | some a => ⟨.ok a, sess, []⟩
      | none => ⟨.error (.keyError "access_token"), sess, []⟩
    else cloudRefresh cfg baseline net nowR sess
  | none => cloudRefresh cfg baseline net nowR sess

/-! ## `ensure_access_token`, local (durable-file) backend -/

/-- Outcome of `ensure_access_token` in local mode: result, file system
after the call, refresh tokens POSTed. -/
structure LocalOutcome where
  result : Except TokErr String
  fs : FS
  posts : List String
deriving Repr, DecidableEq

/-- `ensure_access_token` in local file mode.  Loads `xero_tokens.json`
(re-raising absence as a `FileNotFoundError` naming the path — the baseline
refresh token is never consulted in this branch), short-circuits on a fresh
pair, otherwise refreshes with the stored pair's `refresh_token` and
persists the new pair via `_save_tokens_file` before returning. -/
def ensureAccessTokenLocal (cfg : Config) (net : String → HttpResult)
    (now nowR : Int) (fs : FS) : LocalOutcome :=
  match loadTokensFile fs with
  | .error e => ⟨.error e, fs, []⟩
  | .ok t =>
    if t.expires_at.getD 0 > now + 30 then
      match t.access_token with
      | some a => ⟨.ok a, fs, []⟩
      | none => ⟨.error (.keyError "access_token"), fs, []⟩
    else
      match t.refresh_token with
      | none => ⟨.error (.keyError "refresh_token"), fs, []⟩
      | some rt =>
        let out := refreshAccessToken cfg net nowR rt
        match out.result with
        | .error e => ⟨.error e, fs, out.posts⟩
        | .ok newTok => ⟨.ok newTok.access_token, saveTokensFile fs newTok, out.posts⟩

/-! ## Round-trip lemmas: decimal integers -/

/-- Head of the remaining input is not a decimal digit (so a digit run
stops there). -/
def headNotDigit : List Char → Bool
  | [] => true
  | c :: _ => !isDigitCh c

theorem natDigitsAux_append (n : Nat) : ∀ acc, natDigitsAux n acc = natDigitsAux n [] ++ acc := by
  induction n using Nat.strong_induction_on with
  | _ n ih =>
    intro acc
    match n with
    | 0 => simp [natDigitsAux]
    | m + 1 =>
      rw [natDigitsAux, natDigitsAux,
        ih ((m + 1) / 10) (by omega) (decDigit ((m + 1) % 10) :: acc),
        ih ((m + 1) / 10) (by omega) [decDigit ((m + 1) % 10)]]
      simp

theorem isDigitCh_decDigit (m : Nat) (h : m < 10) : isDigitCh (decDigit m) = true := by
  interval_cases m <;> decide

theorem toNat_decDigit (m : Nat) (h : m < 10) : (decDigit m).toNat = 48 + m := by
  interval_cases m <;> decide

theorem natDigitsAux_all_digits (n : Nat) :
    ∀ acc, (∀ c ∈ acc, isDigitCh c = true) → ∀ c ∈ natDigitsAux n acc, isDigitCh c = true := by
  induction n using Nat.strong_induction_on with
  | _ n ih =>
    intro acc hacc c hc
    match n with
    | 0 => exact hacc c (by simpa [natDigitsAux] using hc)
    | m + 1 =>
      rw [natDigitsAux] at hc
      refine ih ((m + 1) / 10) (by omega) _ ?_ c hc
      intro d hd
      rcases List.mem_cons.mp hd with h | h
      · subst h; exact isDigitCh_decDigit _ (by omega)
      · exact hacc d h

theorem natToDec_all_digits (n : Nat) : ∀ c ∈ natToDec n, isDigitCh c = true := by
  intro c hc
  unfold natToDec at hc
  by_cases h : n = 0
  · simp [h] at hc; subst hc; decide
  · rw [if_neg h] at hc
    exact natDigitsAux_all_digits n [] (by simp) c hc

theorem natDigitsAux_ne_nil (n : Nat) (h : n ≠ 0) : natDigitsAux n [] ≠ [] := by
  match n with
  | m + 1 =>
    rw [natDigitsAux, natDigitsAux_append]
    simp

theorem natToDec_ne_nil (n : Nat) : natToDec n ≠ [] := by
  unfold natToDec
  by_cases h : n = 0
  · simp [h]
  · rw [if_neg h]; exact natDigitsAux_ne_nil n h

theorem parseDigitsAcc_stop (rest : List Char) (a : Nat) (h : headNotDigit rest = true) :
    parseDigitsAcc rest a = (a, rest) := by
  match rest with
  | [] => rfl
  | c :: cs =>
    have : isDigitCh c = false := by
      simpa [headNotDigit] using h
    simp [parseDigitsAcc, this]

theorem parseDigitsAcc_natDigitsAux (n : Nat) :
    ∀ rest a, parseDigitsAcc (natDigitsAux n [] ++ rest) a =
      parseDigitsAcc rest (a * 10 ^ (natDigitsAux n []).length + n) := by
  induction n using Nat.strong_induction_on with
  | _ n ih =>
    intro rest a
    match n with
    | 0 => simp [natDigitsAux]
    | m + 1 =>
      have hsplit : natDigitsAux (m + 1) [] =
          natDigitsAux ((m + 1) / 10) [] ++ [decDigit ((m + 1) % 10)] := by
        rw [natDigitsAux, natDigitsAux_append]
      rw [hsplit, List.append_assoc, ih ((m + 1) / 10) (by omega), List.singleton_append,
        List.length_append, List.length_singleton]
      have hd : isDigitCh (decDigit ((m + 1) % 10)) = true := isDigitCh_decDigit _ (by omega)
      rw [parseDigitsAcc, hd, if_pos rfl, toNat_decDigit _ (by omega)]
      congr 1
      have hmod : ((m + 1) / 10) * 10 + (m + 1) % 10 = m + 1 := by omega
      have hsub : 48 + (m + 1) % 10 - 48 = (m + 1) % 10 := by omega
      rw [hsub]
      calc (a * 10 ^ (natDigitsAux ((m + 1) / 10) []).length + (m + 1) / 10) * 10 +
            (m + 1) % 10
          = a * (10 ^ (natDigitsAux ((m + 1) / 10) []).length * 10) +
            (((m + 1) / 10) * 10 + (m + 1) % 10) := by ring
        _ = a * 10 ^ ((natDigitsAux ((m + 1) / 10) []).length + 1) + (m + 1) := by
            rw [pow_succ, hmod]

theorem parseDigitsAcc_natToDec (m : Nat) (rest : List Char) (h : headNotDigit rest = true) :
    parseDigitsAcc (natToDec m ++ rest) 0 = (m, rest) := by
  unfold natToDec
  by_cases h0 : m = 0
  · subst h0
    have hd : isDigitCh '0' = true := by decide
    have h0t : Char.toNat '0' = 48 := by decide
    rw [if_pos rfl, List.singleton_append, parseDigitsAcc, hd, if_pos rfl, h0t]
    simpa using parseDigitsAcc_stop rest _ h
  · rw [if_neg h0, parseDigitsAcc_natDigitsAux, parseDigitsAcc_stop rest _ h]
    simp

theorem parseInt_intToDec (i : Int) (rest : List Char) (h : headNotDigit rest = true) :
    parseInt (intToDec i ++ rest) = some (i, rest) := by
  obtain ⟨c2, cs2, hcons⟩ := List.exists_cons_of_ne_nil (natToDec_ne_nil i.natAbs)
  have hc2 : isDigitCh c2 = true := natToDec_all_digits _ c2 (by rw [hcons]; simp)
  have hc2ne : c2 ≠ '-' := by
    intro hEq
    rw [hEq] at hc2
    simp [isDigitCh] at hc2
  unfold intToDec
  by_cases hneg : i < 0
  · rw [if_pos hneg, List.cons_append]
    rw [hcons, List.cons_append]
    simp only [parseInt, if_pos rfl, hc2, ← List.cons_append, ← hcons]
    rw [parseDigitsAcc_natToDec _ _ h]
    have hAbs : -(i.natAbs : Int) = i := by omega
    rw [hAbs]
    simp
  · rw [if_neg hneg, hcons, List.cons_append]
    simp only [parseInt, if_neg hc2ne, hc2, if_pos rfl, ← List.cons_append, ← hcons]
    rw [parseDigitsAcc_natToDec _ _ h]
    have hAbs : (i.natAbs : Int) = i := by omega
    simp [hAbs]

/-! ## Round-trip lemmas: escaped strings -/

theorem char_toNat_valid (c : Char) :
    c.toNat < 55296 ∨ (57343 < c.toNat ∧ c.toNat < 1114112) := c.valid

theorem hexVal_hexDigitLC (d : Nat) (h : d < 16) : hexVal (hexDigitLC d) = some d := by
  interval_cases d <;> decide

theorem hex4Val_toHex4 (n : Nat) (h : n < 65536) :
    hex4Val (hexDigitLC (n / 4096 % 16)) (hexDigitLC (n / 256 % 16))
      (hexDigitLC (n / 16 % 16)) (hexDigitLC (n % 16)) = some n := by
  have e1 := hexVal_hexDigitLC (n / 4096 % 16) (by omega)
  have e2 := hexVal_hexDigitLC (n / 256 % 16) (by omega)
  have e3 := hexVal_hexDigitLC (n / 16 % 16) (by omega)
  have e4 := hexVal_hexDigitLC (n % 16) (by omega)
  simp only [hex4Val, e1, e2, e3, e4]
  congr 1
  omega

theorem escChar_length_pos (c : Char) : 0 < (escChar c).length := by
  unfold escChar
  split_ifs <;> simp [toHex4]

theorem le_escStr_length (s : List Char) : s.length ≤ (escStr s).length := by
  induction s with
  | nil => simp [escStr]
  | cons c cs ih =>
    have := escChar_length_pos c
    simp only [escStr, List.length_append, List.length_cons]
    omega

theorem decodeOne_backslash (cs : List Char) : decodeOne ('\\' :: cs) = decodeEsc cs := by
  simp [decodeOne]

theorem decodeEsc_u4_some (a b c d : Char) (rest : List Char) (n : Nat)
    (h : hex4Val a b c d = some n) :
    decodeEsc ('u' :: a :: b :: c :: d :: rest) =
      if n < 55296 ∨ 57344 ≤ n then some (Char.ofNat n, rest)
      else if n < 56320 then decodeLowSurrogate n rest
      else none := by
  simp [decodeEsc, h]

theorem decodeLowSurrogate_some (n : Nat) (a2 b2 c2 d2 : Char) (rest : List Char) (m : Nat)
    (h : hex4Val a2 b2 c2 d2 = some m) :
    decodeLowSurrogate n ('\\' :: 'u' :: a2 :: b2 :: c2 :: d2 :: rest) =
      if 56320 ≤ m ∧ m < 57344 then
        some (Char.ofNat (65536 + (n - 55296) * 1024 + (m - 56320)), rest)
      else none := by
  simp [decodeLowSurrogate, h]

theorem decodeOne_escChar (c : Char) (t : List Char) :
    decodeOne (escChar c ++ t) = some (c, t) := by
  unfold escChar
  split_ifs with h1 h2 h3 h4 h5 h6 h7 h8 h9
  · subst h1; simp [decodeOne, decodeEsc]
  · subst h2; simp [decodeOne, decodeEsc]
  · have hc : decodeOne (['\\', 'b'] ++ t) = some (Char.ofNat 8, t) := by
      simp [decodeOne, decodeEsc]
    rw [hc, ← h3, Char.ofNat_toNat]
  · have hc : decodeOne (['\\', 't'] ++ t) = some (Char.ofNat 9, t) := by
      simp [decodeOne, decodeEsc]
    rw [hc, ← h4, Char.ofNat_toNat]
  · have hc : decodeOne (['\\', 'n'] ++ t) = some (Char.ofNat 10, t) := by
      simp [decodeOne, decodeEsc]
    rw [hc, ← h5, Char.ofNat_toNat]
  · have hc : decodeOne (['\\', 'f'] ++ t) = some (Char.ofNat 12, t) := by
      simp [decodeOne, decodeEsc]
    rw [hc, ← h6, Char.ofNat_toNat]
  · have hc : decodeOne (['\\', 'r'] ++ t) = some (Char.ofNat 13, t) := by
      simp [decodeOne, decodeEsc]
    rw [hc, ← h7, Char.ofNat_toNat]
  · -- basic multilingual plane, escaped as a single \uXXXX
    have hval := char_toNat_valid c
    have hcond : c.toNat < 55296 ∨ 57344 ≤ c.toNat := by omega
    simp only [toHex4, List.cons_append]
    simp [decodeOne, decodeEsc, hex4Val_toHex4 c.toNat (by omega), hcond, Char.ofNat_toNat]
  · -- astral plane, escaped as a surrogate pair
    have hval := char_toNat_valid c
    have hv : 65536 ≤ c.toNat := by omega
    have hv2 : c.toNat < 1114112 := by omega
    have hhiLt : 55296 + (c.toNat - 65536) / 1024 < 56320 := by omega
    have hloGe : 56320 ≤ 56320 + (c.toNat - 65536) % 1024 := by omega
    have hloLt : 56320 + (c.toNat - 65536) % 1024 < 57344 := by omega
    simp only [toHex4, List.cons_append, List.append_assoc, List.nil_append]
    rw [decodeOne_backslash,
      decodeEsc_u4_some _ _ _ _ _ _ (hex4Val_toHex4 (55296 + (c.toNat - 65536) / 1024) (by omega)),
      if_neg (by omega), if_pos hhiLt,
      decodeLowSurrogate_some _ _ _ _ _ _ _
        (hex4Val_toHex4 (56320 + (c.toNat - 65536) % 1024) (by omega)),
      if_pos ⟨hloGe, hloLt⟩]
    have harith : 65536 + (55296 + (c.toNat - 65536) / 1024 - 55296) * 1024 +
        (56320 + (c.toNat - 65536) % 1024 - 56320) = c.toNat := by omega
    rw [harith, Char.ofNat_toNat]
  · -- printable ASCII characters pass through unescaped
    have h32 : ¬(c.toNat < 32) := by omega
    simp [decodeOne, h1, h2, List.singleton_append, h32]

theorem parseStrBodyF_escStr (s : List Char) :
    ∀ fuel t, s.length + 1 ≤ fuel →
      parseStrBodyF fuel (escStr s ++ '"' :: t) = some (s, t) := by
  induction s with
  | nil =>
    intro fuel t hf
    match fuel with
    | f + 1 => simp [escStr, parseStrBodyF]
  | cons c cs ih =>
    intro fuel t hf
    match fuel with
    | f + 1 =>
      obtain ⟨d, ds, hd⟩ : ∃ d ds, escChar c = d :: ds := by
        match hEsc : escChar c with
        | [] =>
          have := escChar_length_pos c
          rw [hEsc] at this
          simp at this
        | d :: ds => exact ⟨d, ds, rfl⟩
      have hone := decodeOne_escChar c (escStr cs ++ '"' :: t)
      rw [hd] at hone
      have hne : d ≠ '"' := by
        intro hq
        rw [hq] at hone
        simp [decodeOne] at hone
      have hcons : escStr (c :: cs) ++ '"' :: t = d :: (ds ++ (escStr cs ++ '"' :: t)) := by
        simp [escStr, hd]
      rw [hcons, parseStrBodyF]
      simp only [List.cons_append] at hone
      simp only [hone, if_neg hne]
      rw [ih f t (by simp at hf; omega)]
      rfl

theorem parseStrBody_escStr (s t : List Char) :
    parseStrBody (escStr s ++ '"' :: t) = some (s, t) := by
  unfold parseStrBody
  refine parseStrBodyF_escStr s _ t ?_
  have := le_escStr_length s
  simp only [List.length_append, List.length_cons]
  omega

theorem stringMkData (s : String) : String.mk s.data = s := rfl

theorem skipWs_headNotWs (c : Char) (cs : List Char)
    (hne : c ≠ ' ') (h9 : c.toNat ≠ 9) (h10 : c.toNat ≠ 10) (h13 : c.toNat ≠ 13) :
    skipWs (c :: cs) = c :: cs := by
  simp [skipWs, hne, h9, h10, h13]

theorem skipWs_intToDec (i : Int) (rest : List Char) :
    skipWs (intToDec i ++ rest) = intToDec i ++ rest := by
  unfold intToDec
  by_cases hneg : i < 0
  · rw [if_pos hneg, List.cons_append]
    exact skipWs_headNotWs _ _ (by decide) (by decide) (by decide) (by decide)
  · rw [if_neg hneg]
    obtain ⟨c2, cs2, hcons⟩ := List.exists_cons_of_ne_nil (natToDec_ne_nil i.natAbs)
    have hd : isDigitCh c2 = true := natToDec_all_digits _ c2 (by rw [hcons]; simp)
    have h48 : 48 ≤ c2.toNat ∧ c2.toNat ≤ 57 := by simpa [isDigitCh] using hd
    rw [hcons, List.cons_append]
    refine skipWs_headNotWs _ _ ?_ (by omega) (by omega) (by omega)
    intro hEq
    subst hEq
    exact absurd h48 (by decide)

/-- Full round trip of the serializer pair: parsing the exact bytes
`_save_tokens_file` writes recovers every field of the token pair. -/
theorem parseTokens_dumpTokens (p : TokenPair) :
    parseTokens (dumpTokens p) = some p.toStored := by
  have hk1 : ¬("refresh_token".data = "access_token".data) := by decide
  have hk2 : ¬("expires_at".data = "access_token".data) := by decide
  have hk3 : ¬("expires_at".data = "refresh_token".data) := by decide
  have hint := parseInt_intToDec p.expires_at ('\n' :: '\x7d' :: []) (by decide)
  unfold parseTokens dumpTokens
  simp only [jsonStringLit, List.cons_append, List.append_assoc, List.nil_append,
    List.singleton_append, stringMkData]
  simp [skipWs, parseMembers, parseStrBody_escStr, applyKey, hk1, hk2, hk3, hint,
    skipWs_intToDec, stringMkData, TokenPair.toStored]

/-! ## Behaviour of the refresh core -/

theorem refreshAccessToken_ok (cfg : Config) (net : String → HttpResult) (nowR : Int)
    (rt : String) (raw : RawResponse) (a2 : String)
    (hcid : cfg.client_id ≠ "") (hsec : cfg.client_secret ≠ "")
    (hnet : net rt = .ok raw) (ha2 : raw.access_token = some a2) :
    refreshAccessToken cfg net nowR rt =
      ⟨.ok ⟨a2, raw.refresh_token.getD rt, nowR + raw.expires_in.getD 1800 - 60⟩, [rt]⟩ := by
  unfold refreshAccessToken
  rw [if_neg (by simp [hcid, hsec]), hnet]
  simp [ha2]

theorem refreshAccessToken_httpError (cfg : Config) (net : String → HttpResult) (nowR : Int)
    (rt : String) (status : Nat) (jd : Option String) (text : String)
    (hcid : cfg.client_id ≠ "") (hsec : cfg.client_secret ≠ "")
    (hnet : net rt = .httpError status jd text) :
    refreshAccessToken cfg net nowR rt =
      ⟨.error (.refreshFailed status (jd.getD (text.take 400))), [rt]⟩ := by
  unfold refreshAccessToken
  rw [if_neg (by simp [hcid, hsec]), hnet]

theorem refreshAccessToken_netError (cfg : Config) (net : String → HttpResult) (nowR : Int)
    (rt : String) (msg : String)
    (hcid : cfg.client_id ≠ "") (hsec : cfg.client_secret ≠ "")
    (hnet : net rt = .netError msg) :
    refreshAccessToken cfg net nowR rt = ⟨.error (.networkError msg), [rt]⟩ := by
  unfold refreshAccessToken
  rw [if_neg (by simp [hcid, hsec]), hnet]

theorem refreshAccessToken_missingAccess (cfg : Config) (net : String → HttpResult) (nowR : Int)
    (rt : String) (raw : RawResponse)
    (hcid : cfg.client_id ≠ "") (hsec : cfg.client_secret ≠ "")
    (hnet : net rt = .ok raw) (hnoat : raw.access_token = none) :
    refreshAccessToken cfg net nowR rt = ⟨.error (.keyError "access_token"), [rt]⟩ := by
  unfold refreshAccessToken
  rw [if_neg (by simp [hcid, hsec]), hnet]
  simp [hnoat]

/-- The refresh core never raises the two `FileNotFoundError`-class errors:
those come only from `ensure_access_token` itself. -/
theorem refreshAccessToken_no_fileNotFound (cfg : Config) (net : String → HttpResult)
    (nowR : Int) (rt : String) :
    (refreshAccessToken cfg net nowR rt).result ≠ .error .noRefreshTokenCloud ∧
    ∀ path, (refreshAccessToken cfg net nowR rt).result ≠ .error (.tokensFileNotFound path) := by
  unfold refreshAccessToken
  split_ifs
  · simp
  · cases h : net rt with
    | ok raw =>
      cases hat : raw.access_token with
      | none => simp [hat]
      | some atok => simp [hat]
    | httpError status jd text => simp
    | netError msg => simp

/-! ## Unfolding lemmas for the two backends -/

theorem ensureCloud_stale (cfg : Config) (baseline : String) (net : String → HttpResult)
    (now nowR : Int) (t : StoredTokens)
    (hstale : ¬(t.truthy = true ∧ t.expires_at.getD 0 > now + 30)) :
    ensureAccessTokenCloud cfg baseline net now nowR (some t) =
      cloudRefresh cfg baseline net nowR (some t) := by
  simp only [ensureAccessTokenCloud]
  rw [if_neg hstale]

theorem ensureCloud_none (cfg : Config) (baseline : String) (net : String → HttpResult)
    (now nowR : Int) :
    ensureAccessTokenCloud cfg baseline net now nowR none =
      cloudRefresh cfg baseline net nowR none := rfl

theorem ensureCloud_fresh (cfg : Config) (baseline : String) (net : String → HttpResult)
    (now nowR : Int) (t : StoredTokens) (a : String)
    (htru : t.truthy = true) (hfresh : t.expires_at.getD 0 > now + 30)
    (ha : t.access_token = some a) :
    ensureAccessTokenCloud cfg baseline net now nowR (some t) = ⟨.ok a, some t, []⟩ := by
  simp only [ensureAccessTokenCloud]
  rw [if_pos ⟨htru, hfresh⟩, ha]

theorem cloudRefresh_empty (cfg : Config) (baseline : String) (net : String → HttpResult)
    (nowR : Int) (sess : Option StoredTokens)
    (hbase : cloudBaseRt sess baseline = "") :
    cloudRefresh cfg baseline net nowR sess = ⟨.error .noRefreshTokenCloud, sess, []⟩ := by
  unfold cloudRefresh
  rw [hbase]
  simp

theorem cloudRefresh_ok (cfg : Config) (baseline : String) (net : String → HttpResult)
    (nowR : Int) (sess : Option StoredTokens) (rt : String) (p : TokenPair) (posts : List String)
    (hbase : cloudBaseRt sess baseline = rt) (hne : rt ≠ "")
    (href : refreshAccessToken cfg net nowR rt = ⟨.ok p, posts⟩) :
    cloudRefresh cfg baseline net nowR sess = ⟨.ok p.access_token, some p.toStored, posts⟩ := by
  unfold cloudRefresh
  rw [hbase, if_neg hne, href]

theorem cloudRefresh_err (cfg : Config) (baseline : String) (net : String → HttpResult)
    (nowR : Int) (sess : Option StoredTokens) (rt : String) (e : TokErr) (posts : List String)
    (hbase : cloudBaseRt sess baseline = rt) (hne : rt ≠ "")
    (href : refreshAccessToken cfg net nowR rt = ⟨.error e, posts⟩) :
    cloudRefresh cfg baseline net nowR sess = ⟨.error e, sess, posts⟩ := by
  unfold cloudRefresh
  rw [hbase, if_neg hne, href]

theorem ensureLocal_load_error (cfg : Config) (net : String → HttpResult) (now nowR : Int)
    (fs : FS) (e : TokErr) (h : loadTokensFile fs = .error e) :
    ensureAccessTokenLocal cfg net now nowR fs = ⟨.error e, fs, []⟩ := by
  unfold ensureAccessTokenLocal
  rw [h]

theorem ensureLocal_fresh (cfg : Config) (net : String → HttpResult) (now nowR : Int)
    (fs : FS) (t : StoredTokens) (a : String)
    (hload : loadTokensFile fs = .ok t) (hfresh : t.expires_at.getD 0 > now + 30)
    (ha : t.access_token = some a) :
    ensureAccessTokenLocal cfg net now nowR fs = ⟨.ok a, fs, []⟩ := by
  unfold ensureAccessTokenLocal
  rw [hload]
  simp only [if_pos hfresh, ha]

theorem ensureLocal_stale_ok (cfg : Config) (net : String → HttpResult) (now nowR : Int)
    (fs : FS) (t : StoredTokens) (rt : String) (p : TokenPair) (posts : List String)
    (hload : loadTokensFile fs = .ok t) (hstale : ¬(t.expires_at.getD 0 > now + 30))
    (hrt : t.refresh_token = some rt)
    (href : refreshAccessToken cfg net nowR rt = ⟨.ok p, posts⟩) :
    ensureAccessTokenLocal cfg net now nowR fs =
      ⟨.ok p.access_token, saveTokensFile fs p, posts⟩ := by
  unfold ensureAccessTokenLocal
  rw [hload]
  simp only [if_neg hstale, hrt, href]

theorem ensureLocal_stale_err (cfg : Config) (net : String → HttpResult) (now nowR : Int)
    (fs : FS) (t : StoredTokens) (rt : String) (e : TokErr) (posts : List String)
    (hload : loadTokensFile fs = .ok t) (hstale : ¬(t.expires_at.getD 0 > now + 30))
    (hrt : t.refresh_token = some rt)
    (href : refreshAccessToken cfg net nowR rt = ⟨.error e, posts⟩) :
    ensureAccessTokenLocal cfg net now nowR fs = ⟨.error e, fs, posts⟩ := by
  unfold ensureAccessTokenLocal
  rw [hload]
  simp only [if_neg hstale, hrt, href]

theorem saveTokensFile_eq (fs : FS) (p : TokenPair) :
    saveTokensFile fs p = ⟨some (dumpTokens p), none⟩ := rfl

theorem loadTokensFile_dump (p : TokenPair) (tmp : Option String) :
    loadTokensFile ⟨some (dumpTokens p), tmp⟩ = .ok p.toStored := by
  unfold loadTokensFile
  simp [parseTokens_dumpTokens]

/-! ## The claims -/

/-- Claim C1: for every stored token pair whose `expires_at` is greater than
`now + 30`, `ensure_access_token` returns the stored `access_token`
unchanged, makes no network call (no POST issued), and performs no write to
the backing store (session cache and file system unchanged), in both
backends. -/
theorem claim_C1_fresh_pair_short_circuit
    (cfg : Config) (baseline : String) (net : String → HttpResult) (now nowR : Int)
    (t : StoredTokens) (a : String) (e : Int)
    (ha : t.access_token = some a) (he : t.expires_at = some e) (hfresh : e > now + 30) :
    ensureAccessTokenCloud cfg baseline net now nowR (some t) = ⟨.ok a, some t, []⟩ ∧
    ∀ fs : FS, loadTokensFile fs = .ok t →
      ensureAccessTokenLocal cfg net now nowR fs = ⟨.ok a, fs, []⟩ := by
  constructor
  · exact ensureCloud_fresh cfg baseline net now nowR t a
      (by simp [StoredTokens.truthy, ha]) (by rw [he]; simpa using hfresh) ha
  · intro fs hload
    exact ensureLocal_fresh cfg net now nowR fs t a hload (by rw [he]; simpa using hfresh) ha

theorem claim_C1_fresh_pair_short_circuit_witness :
    ensureAccessTokenCloud ⟨"i", "s"⟩ "b" (fun _ => .netError "down") 100 100
        (some ⟨some "A", some "R", some 200⟩) =
      ⟨.ok "A", some ⟨some "A", some "R", some 200⟩, []⟩ ∧
    ensureAccessTokenLocal ⟨"i", "s"⟩ (fun _ => .netError "down") 100 100
        ⟨some (dumpTokens ⟨"A", "R", 200⟩), none⟩ =
      ⟨.ok "A", ⟨some (dumpTokens ⟨"A", "R", 200⟩), none⟩, []⟩ := by
  have h := claim_C1_fresh_pair_short_circuit ⟨"i", "s"⟩ "b" (fun _ => .netError "down")
    100 100 ⟨some "A", some "R", some 200⟩ "A" 200 rfl rfl (by decide)
  exact ⟨h.1, h.2 _ (loadTokensFile_dump ⟨"A", "R", 200⟩ none)⟩

/-- Claim C2: for every stored pair with `expires_at ≤ now + 30`,
`ensure_access_token` performs exactly one refresh POST, and on a successful
response the resulting pair's `expires_at` equals
`now_at_refresh + expires_in - 60` with `expires_in` defaulting to `1800`
when absent; the pair is persisted to the active backend (session cache /
token file) and the new `access_token` is returned, in both backends. -/
theorem claim_C2_stale_pair_refreshes_and_persists
    (cfg : Config) (baseline : String) (net : String → HttpResult) (now nowR : Int)
    (t : StoredTokens) (rt : String) (raw : RawResponse) (a2 : String)
    (hcid : cfg.client_id ≠ "") (hsec : cfg.client_secret ≠ "")
    (hrt : t.refresh_token = some rt) (hrtne : rt ≠ "")
    (hexp : t.expires_at.getD 0 ≤ now + 30)
    (hnet : net rt = .ok raw) (ha2 : raw.access_token = some a2) :
    ensureAccessTokenCloud cfg baseline net now nowR (some t) =
      ⟨.ok a2, some (TokenPair.toStored
        ⟨a2, raw.refresh_token.getD rt, nowR + raw.expires_in.getD 1800 - 60⟩), [rt]⟩ ∧
    ∀ fs : FS, loadTokensFile fs = .ok t →
      ensureAccessTokenLocal cfg net now nowR fs =
        ⟨.ok a2, ⟨some (dumpTokens
          ⟨a2, raw.refresh_token.getD rt, nowR + raw.expires_in.getD 1800 - 60⟩), none⟩, [rt]⟩ := by
  have href := refreshAccessToken_ok cfg net nowR rt raw a2 hcid hsec hnet ha2
  have hstale : ¬(t.truthy = true ∧ t.expires_at.getD 0 > now + 30) := by
    rintro ⟨-, h⟩
    omega
  have hbase : cloudBaseRt (some t) baseline = rt := by
    simp [cloudBaseRt, hrt, hrtne]
  constructor
  · rw [ensureCloud_stale cfg baseline net now nowR t hstale,
      cloudRefresh_ok cfg baseline net nowR (some t) rt _ _ hbase hrtne href]
  · intro fs hload
    rw [ensureLocal_stale_ok cfg net now nowR fs t rt _ _ hload (by omega) hrt href,
      saveTokensFile_eq]

theorem claim_C2_stale_pair_refreshes_and_persists_witness :
    ensureAccessTokenCloud ⟨"i", "s"⟩ "b"
        (fun _ => .ok ⟨some "A2", some "R2", none⟩) 1000 1005
        (some ⟨some "A1", some "R1", some 900⟩) =
      ⟨.ok "A2", some (TokenPair.toStored ⟨"A2", "R2", 1005 + 1800 - 60⟩), ["R1"]⟩ ∧
    ensureAccessTokenLocal ⟨"i", "s"⟩ (fun _ => .ok ⟨some "A2", some "R2", none⟩) 1000 1005
        ⟨some (dumpTokens ⟨"A1", "R1", 900⟩), none⟩ =
      ⟨.ok "A2", ⟨some (dumpTokens ⟨"A2", "R2", 1005 + 1800 - 60⟩), none⟩, ["R1"]⟩ := by
  have h := claim_C2_stale_pair_refreshes_and_persists ⟨"i", "s"⟩ "b"
    (fun _ => .ok ⟨some "A2", some "R2", none⟩) 1000 1005
    ⟨some "A1", some "R1", some 900⟩ "R1" ⟨some "A2", some "R2", none⟩ "A2"
    (by decide) (by decide) rfl (by decide) (by decide) rfl rfl
  exact ⟨h.1, h.2 _ (loadTokensFile_dump ⟨"A1", "R1", 900⟩ none)⟩

/-- Claim C3: the `refresh_token` never becomes empty — for every successful
refresh whose provider response omits a new `refresh_token`, the refreshed
pair's `refresh_token` (and hence the pair persisted to either backend)
equals the pre-refresh value. -/
theorem claim_C3_refresh_token_retained
    (cfg : Config) (baseline : String) (net : String → HttpResult) (now nowR : Int)
    (t : StoredTokens) (rt : String) (raw : RawResponse) (a2 : String)
    (hcid : cfg.client_id ≠ "") (hsec : cfg.client_secret ≠ "")
    (hnet : net rt = .ok raw) (ha2 : raw.access_token = some a2)
    (hnort : raw.refresh_token = none)
    (hrt : t.refresh_token = some rt) (hrtne : rt ≠ "")
    (hexp : t.expires_at.getD 0 ≤ now + 30) :
    (refreshAccessToken cfg net nowR rt).result =
      .ok ⟨a2, rt, nowR + raw.expires_in.getD 1800 - 60⟩ ∧
    ((ensureAccessTokenCloud cfg baseline net now nowR (some t)).session.bind
      (fun s => s.refresh_token)) = some rt ∧
    ∀ fs : FS, loadTokensFile fs = .ok t →
      ∃ t2 : StoredTokens,
        loadTokensFile (ensureAccessTokenLocal cfg net now nowR fs).fs = .ok t2 ∧
        t2.refresh_token = some rt := by
  have href := refreshAccessToken_ok cfg net nowR rt raw a2 hcid hsec hnet ha2
  rw [hnort] at href
  simp only [Option.getD_none] at href
  have hstale : ¬(t.truthy = true ∧ t.expires_at.getD 0 > now + 30) := by
    rintro ⟨-, h⟩
    omega
  have hbase : cloudBaseRt (some t) baseline = rt := by
    simp [cloudBaseRt, hrt, hrtne]
  refine ⟨by rw [href], ?_, ?_⟩
  · rw [ensureCloud_stale cfg baseline net now nowR t hstale,
      cloudRefresh_ok cfg baseline net nowR (some t) rt _ _ hbase hrtne href]
    simp [TokenPair.toStored]
  · intro fs hload
    rw [ensureLocal_stale_ok cfg net now nowR fs t rt _ _ hload (by omega) hrt href,
      saveTokensFile_eq]
    exact ⟨_, loadTokensFile_dump _ none, rfl⟩

theorem claim_C3_refresh_token_retained_witness :
    (refreshAccessToken ⟨"i", "s"⟩ (fun _ => .ok ⟨some "A2", none, some 1800⟩) 1005 "R1").result
      = .ok ⟨"A2", "R1", 1005 + 1800 - 60⟩ ∧
    ((ensureAccessTokenCloud ⟨"i", "s"⟩ "b" (fun _ => .ok ⟨some "A2", none, some 1800⟩)
        1000 1005 (some ⟨some "A1", some "R1", some 900⟩)).session.bind
      (fun s => s.refresh_token)) = some "R1" ∧
    ∃ t2 : StoredTokens,
      loadTokensFile (ensureAccessTokenLocal ⟨"i", "s"⟩
          (fun _ => .ok ⟨some "A2", none, some 1800⟩) 1000 1005
          ⟨some (dumpTokens ⟨"A1", "R1", 900⟩), none⟩).fs = .ok t2 ∧
      t2.refresh_token = some "R1" := by
  have h := claim_C3_refresh_token_retained ⟨"i", "s"⟩ "b"
    (fun _ => .ok ⟨some "A2", none, some 1800⟩) 1000 1005
    ⟨some "A1", some "R1", some 900⟩ "R1" ⟨some "A2", none, some 1800⟩ "A2"
    (by decide) (by decide) rfl rfl rfl rfl (by decide) (by decide)
  exact ⟨h.1, h.2.1, h.2.2 _ (loadTokensFile_dump ⟨"A1", "R1", 900⟩ none)⟩

theorem refreshAccessToken_posts (cfg : Config) (net : String → HttpResult) (nowR : Int)
    (rt : String) (hcid : cfg.client_id ≠ "") (hsec : cfg.client_secret ≠ "") :
    (refreshAccessToken cfg net nowR rt).posts = [rt] := by
  unfold refreshAccessToken
  rw [if_neg (by simp [hcid, hsec])]
  cases net rt with
  | ok raw =>
    cases hat : raw.access_token with
    | none => simp [hat]
    | some atok => simp [hat]
  | httpError status jd text => rfl
  | netError msg => rfl

theorem cloudRefresh_posts (cfg : Config) (baseline : String) (net : String → HttpResult)
    (nowR : Int) (sess : Option StoredTokens)
    (hb : cloudBaseRt sess baseline ≠ "") :
    (cloudRefresh cfg baseline net nowR sess).posts =
      (refreshAccessToken cfg net nowR (cloudBaseRt sess baseline)).posts := by
  unfold cloudRefresh
  rw [if_neg hb]
  cases hres : (refreshAccessToken cfg net nowR (cloudBaseRt sess baseline)).result with
  | ok p => simp [hres]
  | error e => simp [hres]

theorem cloudRefresh_result_posts_congr (cfg : Config) (baseline : String)
    (net : String → HttpResult) (nowR : Int) (sess sess' : Option StoredTokens)
    (h : cloudBaseRt sess baseline = cloudBaseRt sess' baseline) :
    (cloudRefresh cfg baseline net nowR sess).result =
      (cloudRefresh cfg baseline net nowR sess').result ∧
    (cloudRefresh cfg baseline net nowR sess).posts =
      (cloudRefresh cfg baseline net nowR sess').posts := by
  unfold cloudRefresh
  rw [h]
  by_cases hb : cloudBaseRt sess' baseline = ""
  · simp [hb]
  · rw [if_neg hb, if_neg hb]
    cases hres : (refreshAccessToken cfg net nowR (cloudBaseRt sess' baseline)).result with
    | ok p => simp [hres]
    | error e => simp [hres]

theorem ensureLocal_stale_posts (cfg : Config) (net : String → HttpResult) (now nowR : Int)
    (fs : FS) (t : StoredTokens) (rt : String)
    (hload : loadTokensFile fs = .ok t) (hstale : ¬(t.expires_at.getD 0 > now + 30))
    (hrt : t.refresh_token = some rt) :
    (ensureAccessTokenLocal cfg net now nowR fs).posts =
      (refreshAccessToken cfg net nowR rt).posts := by
  unfold ensureAccessTokenLocal
  rw [hload]
  simp only [if_neg hstale, hrt]
  cases hres : (refreshAccessToken cfg net nowR rt).result with
  | ok p => simp [hres]
  | error e => simp [hres]

/-- Claim C4 counterexample: the claim says that when a baseline refresh
token is configured but no stored pair exists, `ensure_access_token`
refreshes using the baseline instead of failing, in both backends.  In the
local (durable-file) backend the code never consults the baseline at all:
with the token file absent — client credentials configured and the provider
ready to answer successfully — it raises the `FileNotFoundError` naming the
path and issues no POST. -/
theorem claim_C4_counterexample :
    (ensureAccessTokenLocal ⟨"i", "s"⟩ (fun _ => .ok ⟨some "A2", some "R2", some 1800⟩)
        1000 1005 ⟨none, none⟩).result = .error (.tokensFileNotFound TOKENS_PATH) ∧
    (ensureAccessTokenLocal ⟨"i", "s"⟩ (fun _ => .ok ⟨some "A2", some "R2", some 1800⟩)
        1000 1005 ⟨none, none⟩).posts = [] := by
  constructor <;> rfl

/-- Claim C4 (amended): in the cloud backend the claim holds as an iff —
given the cached pair (if any) is not fresh, `ensure_access_token` raises
the credentials-missing `FileNotFoundError` exactly when neither a cached
non-empty `refresh_token` nor a non-empty baseline is available, and
otherwise proceeds to refresh.  In the local backend, a missing token file
always raises a `FileNotFoundError` naming the expected path, with no
network call, regardless of any configured baseline (the local branch never
reads the baseline). -/
theorem claim_C4_amended
    (cfg : Config) (baseline : String) (net : String → HttpResult) (now nowR : Int)
    (sess : Option StoredTokens)
    (hstale : ∀ t, sess = some t → ¬(t.truthy = true ∧ t.expires_at.getD 0 > now + 30)) :
    ((ensureAccessTokenCloud cfg baseline net now nowR sess).result =
        .error .noRefreshTokenCloud ↔ cloudBaseRt sess baseline = "") ∧
    ∀ (cfg2 : Config) (net2 : String → HttpResult) (now2 nowR2 : Int) (tmp : Option String),
      ensureAccessTokenLocal cfg2 net2 now2 nowR2 ⟨none, tmp⟩ =
        ⟨.error (.tokensFileNotFound TOKENS_PATH), ⟨none, tmp⟩, []⟩ := by
  constructor
  · have key : (cloudRefresh cfg baseline net nowR sess).result =
        .error .noRefreshTokenCloud ↔ cloudBaseRt sess baseline = "" := by
      by_cases hb : cloudBaseRt sess baseline = ""
      · rw [cloudRefresh_empty cfg baseline net nowR sess hb]
        simp [hb]
      · unfold cloudRefresh
        rw [if_neg hb]
        cases hres : (refreshAccessToken cfg net nowR (cloudBaseRt sess baseline)).result with
        | ok p => simp [hres, hb]
        | error e =>
          have hne := (refreshAccessToken_no_fileNotFound cfg net nowR
            (cloudBaseRt sess baseline)).1
          rw [hres] at hne
          simp only [hres, hb, iff_false]
          intro hEq
          injection hEq with hEq2
          exact hne (by rw [hEq2])
    cases sess with
    | none => rw [ensureCloud_none]; exact key
    | some t => rw [ensureCloud_stale cfg baseline net now nowR t (hstale t rfl)]; exact key
  · intro cfg2 net2 now2 nowR2 tmp
    exact ensureLocal_load_error cfg2 net2 now2 nowR2 ⟨none, tmp⟩ _ rfl

theorem claim_C4_amended_witness :
    ((ensureAccessTokenCloud ⟨"i", "s"⟩ "" (fun _ => .netError "down") 1000 1005
        (some ⟨none, none, some 0⟩)).result = .error .noRefreshTokenCloud ↔
      cloudBaseRt (some ⟨none, none, some 0⟩) "" = "") ∧
    ensureAccessTokenLocal ⟨"x", "y"⟩ (fun _ => .netError "n") 5 6 ⟨none, some "leftover"⟩ =
      ⟨.error (.tokensFileNotFound TOKENS_PATH), ⟨none, some "leftover"⟩, []⟩ := by
  have h := claim_C4_amended ⟨"i", "s"⟩ "" (fun _ => .netError "down") 1000 1005
    (some ⟨none, none, some 0⟩) (by intro t hEq; cases hEq; decide)
  exact ⟨h.1, h.2 ⟨"x", "y"⟩ (fun _ => .netError "n") 5 6 (some "leftover")⟩

/-- Claim C5: for every refresh attempt that fails — non-success HTTP
status, or a transport/timeout error — the corresponding exception is
raised (for the HTTP case a `RuntimeError` carrying the status code and the
response detail, the text form truncated to 400 characters), and the
previously stored token pair is left unchanged in the active backend: the
session cache and the file system are exactly as before, in both
backends. -/
theorem claim_C5_refresh_failure_preserves_state
    (cfg : Config) (baseline : String) (net : String → HttpResult) (now nowR : Int)
    (t : StoredTokens) (rt : String)
    (hcid : cfg.client_id ≠ "") (hsec : cfg.client_secret ≠ "")
    (hrt : t.refresh_token = some rt) (hrtne : rt ≠ "")
    (hexp : t.expires_at.getD 0 ≤ now + 30) :
    (∀ status jd text, net rt = .httpError status jd text →
      (TokErr.refreshFailed status (jd.getD (text.take 400))).errClass = .runtimeError ∧
      ensureAccessTokenCloud cfg baseline net now nowR (some t) =
        ⟨.error (.refreshFailed status (jd.getD (text.take 400))), some t, [rt]⟩ ∧
      ∀ fs : FS, loadTokensFile fs = .ok t →
        ensureAccessTokenLocal cfg net now nowR fs =
          ⟨.error (.refreshFailed status (jd.getD (text.take 400))), fs, [rt]⟩) ∧
    (∀ msg, net rt = .netError msg →
      ensureAccessTokenCloud cfg baseline net now nowR (some t) =
        ⟨.error (.networkError msg), some t, [rt]⟩ ∧
      ∀ fs : FS, loadTokensFile fs = .ok t →
        ensureAccessTokenLocal cfg net now nowR fs = ⟨.error (.networkError msg), fs, [rt]⟩) := by
  have hstale : ¬(t.truthy = true ∧ t.expires_at.getD 0 > now + 30) := by
    rintro ⟨-, h⟩
    omega
  have hbase : cloudBaseRt (some t) baseline = rt := by
    simp [cloudBaseRt, hrt, hrtne]
  constructor
  · intro status jd text hnet
    have href := refreshAccessToken_httpError cfg net nowR rt status jd text hcid hsec hnet
    refine ⟨rfl, ?_, ?_⟩
    · rw [ensureCloud_stale cfg baseline net now nowR t hstale,
        cloudRefresh_err cfg baseline net nowR (some t) rt _ _ hbase hrtne href]
    · intro fs hload
      rw [ensureLocal_stale_err cfg net now nowR fs t rt _ _ hload (by omega) hrt href]
  · intro msg hnet
    have href := refreshAccessToken_netError cfg net nowR rt msg hcid hsec hnet
    refine ⟨?_, ?_⟩
    · rw [ensureCloud_stale cfg baseline net now nowR t hstale,
        cloudRefresh_err cfg baseline net nowR (some t) rt _ _ hbase hrtne href]
    · intro fs hload
      rw [ensureLocal_stale_err cfg net now nowR fs t rt _ _ hload (by omega) hrt href]

theorem claim_C5_refresh_failure_preserves_state_witness :
    ensureAccessTokenCloud ⟨"i", "s"⟩ "b"
        (fun _ => .httpError 400 (some "error invalid_grant") "body") 1000 1005
        (some ⟨some "A1", some "R1", some 900⟩) =
      ⟨.error (.refreshFailed 400 "error invalid_grant"),
        some ⟨some "A1", some "R1", some 900⟩, ["R1"]⟩ ∧
    ensureAccessTokenLocal ⟨"i", "s"⟩ (fun _ => .netError "timeout") 1000 1005
        ⟨some (dumpTokens ⟨"A1", "R1", 900⟩), none⟩ =
      ⟨.error (.networkError "timeout"), ⟨some (dumpTokens ⟨"A1", "R1", 900⟩), none⟩, ["R1"]⟩ := by
  have h1 := claim_C5_refresh_failure_preserves_state ⟨"i", "s"⟩ "b"
    (fun _ => .httpError 400 (some "error invalid_grant") "body") 1000 1005
    ⟨some "A1", some "R1", some 900⟩ "R1" (by decide) (by decide) rfl (by decide) (by decide)
  have h2 := claim_C5_refresh_failure_preserves_state ⟨"i", "s"⟩ "b"
    (fun _ => .netError "timeout") 1000 1005
    ⟨some "A1", some "R1", some 900⟩ "R1" (by decide) (by decide) rfl (by decide) (by decide)
  exact ⟨((h1.1 400 (some "error invalid_grant") "body" rfl).2).1,
    (h2.2 "timeout" rfl).2 _ (loadTokensFile_dump ⟨"A1", "R1", 900⟩ none)⟩

/-- Claim C6: every write of the token pair to the durable file goes through
the write-to-temporary-then-rename sequence: at each of the three states a
reader (or a crash) can observe — before the temporary write, between the
temporary write and the rename, and after the rename — the content of
`xero_tokens.json` is either the old content, complete, or the complete dump
of the new pair; in particular a crash between the two steps leaves the
previous file intact, and after the rename the file holds exactly the new
pair's dump. -/
theorem claim_C6_atomic_save (fs : FS) (p : TokenPair) :
    (∀ s ∈ saveTrace fs p, s.tokensJson = fs.tokensJson ∨ s.tokensJson = some (dumpTokens p)) ∧
    (saveWriteTmp fs p).tokensJson = fs.tokensJson ∧
    (saveTokensFile fs p).tokensJson = some (dumpTokens p) := by
  refine ⟨?_, rfl, rfl⟩
  intro s hs
  simp only [saveTrace, List.mem_cons, List.mem_singleton, List.not_mem_nil, or_false] at hs
  rcases hs with h | h | h
  · subst h
    exact Or.inl rfl
  · subst h
    exact Or.inl rfl
  · subst h
    exact Or.inr rfl

theorem claim_C6_atomic_save_witness :
    ((saveWriteTmp ⟨some "old", none⟩ ⟨"A", "R", 5⟩).tokensJson = some "old" ∨
      (saveWriteTmp ⟨some "old", none⟩ ⟨"A", "R", 5⟩).tokensJson =
        some (dumpTokens ⟨"A", "R", 5⟩)) ∧
    (saveWriteTmp ⟨some "old", none⟩ ⟨"A", "R", 5⟩).tokensJson = some "old" ∧
    (saveTokensFile ⟨some "old", none⟩ ⟨"A", "R", 5⟩).tokensJson =
      some (dumpTokens ⟨"A", "R", 5⟩) := by
  have h := claim_C6_atomic_save ⟨some "old", none⟩ ⟨"A", "R", 5⟩
  exact ⟨h.1 _ (by simp [saveTrace]), h.2.1, h.2.2⟩

/-- Claim C7 counterexample: the claim says a success response lacking
`access_token` fails with the same error class as a rejected refresh.  At a
concrete such response the code raises a `KeyError` (from
`raw["access_token"]`), while a rejected refresh raises a `RuntimeError`:
the classes differ. -/
theorem claim_C7_counterexample :
    (refreshAccessToken ⟨"i", "s"⟩ (fun _ => .ok ⟨none, some "R2", some 1800⟩) 1005 "R1").result
      = .error (.keyError "access_token") ∧
    (TokErr.keyError "access_token").errClass ≠
      (TokErr.refreshFailed 400 "error invalid_grant").errClass := by
  exact ⟨rfl, by decide⟩

/-- Claim C7 (amended): for every provider response with a success HTTP
status whose JSON body lacks the `access_token` field, the refresh fails
with a `KeyError` — a different exception class from the `RuntimeError` of a
rejected refresh — and no token pair is persisted: the session cache and the
file system are unchanged in both backends. -/
theorem claim_C7_missing_access_token_amended
    (cfg : Config) (baseline : String) (net : String → HttpResult) (now nowR : Int)
    (t : StoredTokens) (rt : String) (raw : RawResponse)
    (hcid : cfg.client_id ≠ "") (hsec : cfg.client_secret ≠ "")
    (hnet : net rt = .ok raw) (hnoat : raw.access_token = none)
    (hrt : t.refresh_token = some rt) (hrtne : rt ≠ "")
    (hexp : t.expires_at.getD 0 ≤ now + 30) :
    refreshAccessToken cfg net nowR rt = ⟨.error (.keyError "access_token"), [rt]⟩ ∧
    (TokErr.keyError "access_token").errClass = .keyError ∧
    ensureAccessTokenCloud cfg baseline net now nowR (some t) =
      ⟨.error (.keyError "access_token"), some t, [rt]⟩ ∧
    ∀ fs : FS, loadTokensFile fs = .ok t →
      ensureAccessTokenLocal cfg net now nowR fs =
        ⟨.error (.keyError "access_token"), fs, [rt]⟩ := by
  have href := refreshAccessToken_missingAccess cfg net nowR rt raw hcid hsec hnet hnoat
  have hstale : ¬(t.truthy = true ∧ t.expires_at.getD 0 > now + 30) := by
    rintro ⟨-, h⟩
    omega
  have hbase : cloudBaseRt (some t) baseline = rt := by
    simp [cloudBaseRt, hrt, hrtne]
  refine ⟨href, rfl, ?_, ?_⟩
  · rw [ensureCloud_stale cfg baseline net now nowR t hstale,
      cloudRefresh_err cfg baseline net nowR (some t) rt _ _ hbase hrtne href]
  · intro fs hload
    rw [ensureLocal_stale_err cfg net now nowR fs t rt _ _ hload (by omega) hrt href]

theorem claim_C7_missing_access_token_amended_witness :
    refreshAccessToken ⟨"i", "s"⟩ (fun _ => .ok ⟨none, some "R2", some 1800⟩) 1005 "R1" =
      ⟨.error (.keyError "access_token"), ["R1"]⟩ ∧
    (TokErr.keyError "access_token").errClass = .keyError ∧
    ensureAccessTokenCloud ⟨"i", "s"⟩ "b" (fun _ => .ok ⟨none, some "R2", some 1800⟩) 1000 1005
        (some ⟨some "A1", some "R1", some 900⟩) =
      ⟨.error (.keyError "access_token"), some ⟨some "A1", some "R1", some 900⟩, ["R1"]⟩ ∧
    ensureAccessTokenLocal ⟨"i", "s"⟩ (fun _ => .ok ⟨none, some "R2", some 1800⟩) 1000 1005
        ⟨some (dumpTokens ⟨"A1", "R1", 900⟩), none⟩ =
      ⟨.error (.keyError "access_token"), ⟨some (dumpTokens ⟨"A1", "R1", 900⟩), none⟩, ["R1"]⟩ := by
  have h := claim_C7_missing_access_token_amended ⟨"i", "s"⟩ "b"
    (fun _ => .ok ⟨none, some "R2", some 1800⟩) 1000 1005
    ⟨some "A1", some "R1", some 900⟩ "R1" ⟨none, some "R2", some 1800⟩
    (by decide) (by decide) rfl rfl rfl (by decide) (by decide)
  exact ⟨h.1, h.2.1, h.2.2.1, h.2.2.2 _ (loadTokensFile_dump ⟨"A1", "R1", 900⟩ none)⟩

/-- Claim C8: round trip — for every token pair (access-token string,
refresh-token string, `expires_at` integer) and every prior file-system
state, saving the pair to the durable file and loading it back yields a
stored dictionary with exactly the same three field values. -/
theorem claim_C8_save_load_round_trip (fs : FS) (p : TokenPair) :
    loadTokensFile (saveTokensFile fs p) = .ok p.toStored ∧
    p.toStored.access_token = some p.access_token ∧
    p.toStored.refresh_token = some p.refresh_token ∧
    p.toStored.expires_at = some p.expires_at := by
  refine ⟨?_, rfl, rfl, rfl⟩
  rw [saveTokensFile_eq]
  exact loadTokensFile_dump p none

/-- Claim C9: in the ephemeral-session backend, when a cached pair exists
but is not fresh, the refresh POST uses the cached pair's `refresh_token`;
the baseline refresh token from configuration is used only when the cached
pair is absent, or its `refresh_token` key is missing or empty — so a
provider-rotated refresh token takes precedence over the stale baseline on
every subsequent refresh within the session. -/
theorem claim_C9_cached_refresh_token_precedence
    (cfg : Config) (baseline : String) (net : String → HttpResult) (now nowR : Int)
    (t : StoredTokens)
    (hcid : cfg.client_id ≠ "") (hsec : cfg.client_secret ≠ "")
    (hstale : ¬(t.truthy = true ∧ t.expires_at.getD 0 > now + 30)) :
    (∀ r, t.refresh_token = some r → r ≠ "" →
      (ensureAccessTokenCloud cfg baseline net now nowR (some t)).posts = [r]) ∧
    ((t.refresh_token = none ∨ t.refresh_token = some "") → baseline ≠ "" →
      (ensureAccessTokenCloud cfg baseline net now nowR (some t)).posts = [baseline]) ∧
    (baseline ≠ "" →
      (ensureAccessTokenCloud cfg baseline net now nowR none).posts = [baseline]) := by
  have key : ∀ (sess : Option StoredTokens) (rt : String),
      cloudBaseRt sess baseline = rt → rt ≠ "" →
      (cloudRefresh cfg baseline net nowR sess).posts = [rt] := by
    intro sess rt hb hne
    rw [cloudRefresh_posts cfg baseline net nowR sess (by rw [hb]; exact hne), hb,
      refreshAccessToken_posts cfg net nowR rt hcid hsec]
  refine ⟨?_, ?_, ?_⟩
  · intro r hr hrne
    rw [ensureCloud_stale cfg baseline net now nowR t hstale]
    exact key (some t) r (by simp [cloudBaseRt, hr, hrne]) hrne
  · intro hcase hbne
    rw [ensureCloud_stale cfg baseline net now nowR t hstale]
    refine key (some t) baseline ?_ hbne
    rcases hcase with h | h <;> simp [cloudBaseRt, h]
  · intro hbne
    rw [ensureCloud_none]
    exact key none baseline (by simp [cloudBaseRt]) hbne

theorem claim_C9_cached_refresh_token_precedence_witness :
    (ensureAccessTokenCloud ⟨"i", "s"⟩ "B" (fun _ => .netError "down") 1000 1005
      (some ⟨some "A", some "R1", some 0⟩)).posts = ["R1"] ∧
    (ensureAccessTokenCloud ⟨"i", "s"⟩ "B" (fun _ => .netError "down") 1000 1005
      (some ⟨some "A", none, some 0⟩)).posts = ["B"] ∧
    (ensureAccessTokenCloud ⟨"i", "s"⟩ "B" (fun _ => .netError "down") 1000 1005 none).posts
      = ["B"] := by
  have h1 := claim_C9_cached_refresh_token_precedence ⟨"i", "s"⟩ "B"
    (fun _ => .netError "down") 1000 1005 ⟨some "A", some "R1", some 0⟩
    (by decide) (by decide) (by rintro ⟨-, h⟩; revert h; decide)
  have h2 := claim_C9_cached_refresh_token_precedence ⟨"i", "s"⟩ "B"
    (fun _ => .netError "down") 1000 1005 ⟨some "A", none, some 0⟩
    (by decide) (by decide) (by rintro ⟨-, h⟩; revert h; decide)
  exact ⟨h1.1 "R1" rfl (by decide), h2.2.1 (Or.inl rfl) (by decide), h2.2.2 (by decide)⟩

/-- Claim C10: in both backends, a stored token pair whose `expires_at`
field is missing is treated as having `expires_at = 0`, i.e. as already
expired: `ensure_access_token` behaves exactly as it would with an explicit
`expires_at = 0` and proceeds to a refresh (one POST with the stored
`refresh_token`) rather than raising an error or returning the stale
`access_token` without a refresh. -/
theorem claim_C10_missing_expires_at_is_zero
    (cfg : Config) (baseline : String) (net : String → HttpResult) (now nowR : Int)
    (a r : String)
    (hcid : cfg.client_id ≠ "") (hsec : cfg.client_secret ≠ "")
    (hrne : r ≠ "") (hnow : 0 ≤ now) :
    ((ensureAccessTokenCloud cfg baseline net now nowR (some ⟨some a, some r, none⟩)).result =
      (ensureAccessTokenCloud cfg baseline net now nowR (some ⟨some a, some r, some 0⟩)).result ∧
     (ensureAccessTokenCloud cfg baseline net now nowR (some ⟨some a, some r, none⟩)).posts =
      (ensureAccessTokenCloud cfg baseline net now nowR (some ⟨some a, some r, some 0⟩)).posts) ∧
    (ensureAccessTokenCloud cfg baseline net now nowR (some ⟨some a, some r, none⟩)).posts
      = [r] ∧
    ∀ fs : FS, loadTokensFile fs = .ok ⟨some a, some r, none⟩ →
      (ensureAccessTokenLocal cfg net now nowR fs).posts = [r] := by
  have hstale1 : ¬((⟨some a, some r, none⟩ : StoredTokens).truthy = true ∧
      (⟨some a, some r, none⟩ : StoredTokens).expires_at.getD 0 > now + 30) := by
    rintro ⟨-, h⟩
    simp only [Option.getD_none] at h
    omega
  have hstale2 : ¬((⟨some a, some r, some 0⟩ : StoredTokens).truthy = true ∧
      (⟨some a, some r, some 0⟩ : StoredTokens).expires_at.getD 0 > now + 30) := by
    rintro ⟨-, h⟩
    simp only [Option.getD_some] at h
    omega
  have hb : cloudBaseRt (some ⟨some a, some r, none⟩) baseline = r := by
    simp [cloudBaseRt, hrne]
  have hb0 : cloudBaseRt (some ⟨some a, some r, some 0⟩) baseline = r := by
    simp [cloudBaseRt, hrne]
  refine ⟨?_, ?_, ?_⟩
  · rw [ensureCloud_stale cfg baseline net now nowR _ hstale1,
      ensureCloud_stale cfg baseline net now nowR _ hstale2]
    exact cloudRefresh_result_posts_congr cfg baseline net nowR _ _ (by rw [hb, hb0])
  · rw [ensureCloud_stale cfg baseline net now nowR _ hstale1,
      cloudRefresh_posts cfg baseline net nowR _ (by rw [hb]; exact hrne), hb,
      refreshAccessToken_posts cfg net nowR r hcid hsec]
  · intro fs hload
    rw [ensureLocal_stale_posts cfg net now nowR fs _ r hload
        (by simp only [Option.getD_none]; omega) rfl,
      refreshAccessToken_posts cfg net nowR r hcid hsec]

theorem claim_C10_missing_expires_at_is_zero_witness :
    ((ensureAccessTokenCloud ⟨"i", "s"⟩ "B" (fun _ => .netError "down") 1000 1005
        (some ⟨some "A", some "R", none⟩)).result =
      (ensureAccessTokenCloud ⟨"i", "s"⟩ "B" (fun _ => .netError "down") 1000 1005
        (some ⟨some "A", some "R", some 0⟩)).result ∧
     (ensureAccessTokenCloud ⟨"i", "s"⟩ "B" (fun _ => .netError "down") 1000 1005
        (some ⟨some "A", some "R", none⟩)).posts =
      (ensureAccessTokenCloud ⟨"i", "s"⟩ "B" (fun _ => .netError "down") 1000 1005
        (some ⟨some "A", some "R", some 0⟩)).posts) ∧
    (ensureAccessTokenCloud ⟨"i", "s"⟩ "B" (fun _ => .netError "down") 1000 1005
      (some ⟨some "A", some "R", none⟩)).posts = ["R"] ∧
    (ensureAccessTokenLocal ⟨"i", "s"⟩ (fun _ => .netError "down") 1000 1005
      ⟨some "\x7b\"access_token\": \"A\", \"refresh_token\": \"R\"\x7d", none⟩).posts = ["R"] := by
  have h := claim_C10_missing_expires_at_is_zero ⟨"i", "s"⟩ "B" (fun _ => .netError "down")
    1000 1005 "A" "R" (by decide) (by decide) (by decide) (by decide)
  exact ⟨h.1, h.2.1, h.2.2 _ (by decide)⟩
